import Mathlib

/- Shallow embedding of the CR3 metadata extractor (src/cr3_parser.py).
   Byte buffers are lists of naturals, Python dictionaries are association
   lists whose head holds the most recent write, and the unbounded loops of
   the source (`while io.tell() < len(data)` in parse_container, `while True`
   in extract_cr3_metadata) are modelled with an explicit fuel argument: a
   result of `none` means the fuel was exhausted, so the source loop has not
   terminated within that many iterations.  The external TIFF/EXIF decoder
   (exifread.process_file) is a parameter `dec : Bytes → Option TagMap`
   where `none` models a raised exception and `some m` the returned tag map
   (the source applies `str` to each looked-up value; values are modelled as
   the resulting strings).  Python floats are modelled as exact rationals:
   every numeric literal appearing in the verified statements is exactly
   representable as an IEEE double, so the model and CPython agree there;
   `inf`/`nan`/underscored literals are treated as parse failures. -/

namespace CR3

abbrev Bytes := List Nat

/-- The slice data[pos : pos+n], as Python BytesIO.read returns it from a
buffer (clipped at the end of the buffer). -/
def readN (data : Bytes) (pos n : Nat) : Bytes := (data.drop pos).take n

/-- Big-endian value of a byte list (struct.unpack of a 4- or 8-byte read). -/
def beVal (l : Bytes) : Nat := l.foldl (fun acc b => acc * 256 + b) 0

/-- The triple returned by read_box_header: `(box_type, box_size, header_size)`.
The failure sentinel of the source is `(None, None, 0)`, i.e. `⟨none, none, 0⟩`. -/
structure BoxHeader where
  boxType : Option Bytes
  boxSize : Option Nat
  headerSize : Nat
deriving DecidableEq

/-- read_box_header (cr3_parser.py lines 12-31): reads 4 size bytes (sentinel
on a short read), then up to 4 type bytes (the source does not check this
read), then, when the size field is 1, 8 extended-size bytes (sentinel on a
short read).  The second component is the cursor position after the reads,
which is where parse_container continues reading the box content. -/
def read_box_header (data : Bytes) (pos : Nat) : BoxHeader × Nat :=
  let sizeBytes := readN data pos 4
  let p1 := pos + sizeBytes.length
  if sizeBytes.length < 4 then (⟨none, none, 0⟩, p1)
  else
    let boxSize := beVal sizeBytes
    let typeBytes := readN data p1 4
    let p2 := p1 + typeBytes.length
    if boxSize = 1 then
      let ext := readN data p2 8
      let p3 := p2 + ext.length
      if ext.length < 8 then (⟨none, none, 0⟩, p3)
      else (⟨some typeBytes, some (beVal ext), 16⟩, p3)
    else (⟨some typeBytes, some boxSize, 8⟩, p2)

/-- The Canon vendor UUID constant of cr3_parser.py line 47. -/
def canonUUID : Bytes :=
  [0x85, 0xc0, 0xb6, 0x87, 0x82, 0x0f, 0x11, 0xe0,
   0x81, 0x11, 0xf4, 0xce, 0x46, 0x2b, 0x6a, 0x48]

/-- b'uuid' -/
def uuidType : Bytes := [117, 117, 105, 100]
/-- b'moov' -/
def moovType : Bytes := [109, 111, 111, 118]
/-- b'trak' -/
def trakType : Bytes := [116, 114, 97, 107]
/-- b'mdia' -/
def mdiaType : Bytes := [109, 100, 105, 97]
/-- b'minf' -/
def minfType : Bytes := [109, 105, 110, 102]
/-- b'udta' -/
def udtaType : Bytes := [117, 100, 116, 97]

/-- The fixed container list of cr3_parser.py line 56. -/
def containerTypes : List Bytes := [moovType, trakType, mdiaType, minfType, udtaType]

/-- b'CMT1' -/
def cmt1 : Bytes := [67, 77, 84, 49]
/-- b'CMT2' -/
def cmt2 : Bytes := [67, 77, 84, 50]
/-- b'CMT3' -/
def cmt3 : Bytes := [67, 77, 84, 51]
/-- b'CMT4' -/
def cmt4 : Bytes := [67, 77, 84, 52]

/-- The target list passed by extract_cr3_metadata (line 173). -/
def cmtTargets : List Bytes := [cmt1, cmt2, cmt3, cmt4]

/-- box_type.decode() for the ASCII type codes that are ever stored as keys. -/
def strOfBytes (b : Bytes) : String := String.mk (b.map Char.ofNat)

/-- A Python dict from strings to byte payloads, most recent write first. -/
abbrev BoxMap := List (String × Bytes)

/-- cmt_boxes[k] = v -/
def dictSet (m : BoxMap) (k : String) (v : Bytes) : BoxMap := (k, v) :: m

/-- Dictionary lookup: the most recent write wins. -/
def dlookupB : BoxMap → String → Option Bytes
  | [], _ => none
  | (k, v) :: rest, key => if key = k then some v else dlookupB rest key

/-- m.update(sub): keys of sub override keys of m. -/
def dictUpdate (m sub : BoxMap) : BoxMap := sub ++ m

/-- One iteration of the `while io.tell() < len(data)` loop of parse_container
(lines 38-60).  `rec` is the recursive call on a sub-buffer.  Returns
`some (Sum.inl m)` when the loop exits returning m (end of buffer or header
sentinel), `some (Sum.inr (p, acc))` when the iteration finished with
`io.seek(pos + box_size)` landing on p, and `none` when a recursive parse ran
out of fuel. -/
def parseStep (rec : Bytes → Option BoxMap) (data : Bytes) (targets : List Bytes)
    (pos : Nat) (acc : BoxMap) : Option (Sum BoxMap (Nat × BoxMap)) :=
  if pos < data.length then
    match read_box_header data pos with
    | (⟨none, _, _⟩, _) => some (Sum.inl acc)
    | (⟨some tb, bsize, hs⟩, p) =>
      if tb = [] then some (Sum.inl acc)
      else
        let size := bsize.getD 0
        let content := if hs < size then readN data p (size - hs) else []
        let res :=
          if tb = uuidType ∧ canonUUID.isPrefixOf content then
            (rec (content.drop 16)).map (fun sub => dictUpdate acc sub)
          else if tb ∈ targets then
            some (dictSet acc (strOfBytes tb) content)
          else if tb ∈ containerTypes then
            (rec content).map (fun sub => dictUpdate acc sub)
          else some acc
        res.map (fun acc2 => Sum.inr (pos + size, acc2))
  else some (Sum.inl acc)

/-- The loop of parse_container, with fuel counting loop iterations and
recursion depth; `none` models non-termination within the given fuel. -/
def parseLoop : Nat → Bytes → List Bytes → Nat → BoxMap → Option BoxMap
  | 0, _, _, _, _ => none
  | fuel + 1, data, targets, pos, acc =>
    match parseStep (fun d => parseLoop fuel d targets 0 []) data targets pos acc with
    | none => none
    | some (Sum.inl m) => some m
    | some (Sum.inr (p2, acc2)) => parseLoop fuel data targets p2 acc2

/-- parse_container (cr3_parser.py lines 33-62). -/
def parse_container (fuel : Nat) (data : Bytes) (targets : List Bytes) : Option BoxMap :=
  parseLoop fuel data targets 0 []

/-- The top-level `while True` moov scan of extract_cr3_metadata (lines
155-165): `some none` models breaking without a moov box, `some (some c)`
finding one with content c.  A negative Python read size (box_size smaller
than the header) reads the whole rest of the file. -/
def topScan : Nat → Bytes → Nat → Option (Option Bytes)
  | 0, _, _ => none
  | fuel + 1, data, pos =>
    match read_box_header data pos with
    | (⟨none, _, _⟩, _) => some none
    | (⟨some tb, bsize, hs⟩, p) =>
      if tb = [] then some none
      else
        let size := bsize.getD 0
        if tb = moovType then
          some (some (if hs < size then readN data p (size - hs)
                      else if size < hs then data.drop p else []))
        else topScan fuel data (pos + size)

/-- A Python dict from strings to strings, most recent write first. -/
abbrev TagMap := List (String × String)

def dictSetS (m : TagMap) (k v : String) : TagMap := (k, v) :: m

def dlookupS : TagMap → String → Option String
  | [], _ => none
  | (k, v) :: rest, key => if key = k then some v else dlookupS rest key

/-- d.get(k, default) -/
def dictGetS (m : TagMap) (k d : String) : String := (dlookupS m k).getD d

def hasKeyS (m : TagMap) (k : String) : Bool := (dlookupS m k).isSome

/-- Iteration order of a Python dict: keys in order of first insertion. -/
def firstDedupAux : List String → List String → List String
  | [], _ => []
  | k :: rest, seen =>
    if k ∈ seen then firstDedupAux rest seen else k :: firstDedupAux rest (k :: seen)

/-- cmt_data.items(): unique keys in first-insertion order, each mapped to its
most recent value. -/
def dictItems (m : BoxMap) : List (String × Bytes) :=
  (firstDedupAux (m.reverse.map Prod.fst) []).map (fun k => (k, (dlookupB m k).getD []))

/-- The body of the per-block try of extract_exif_tags (lines 67-101): a
decoder exception (`none`) leaves the accumulated tags unchanged. -/
def processBlock (dec : Bytes → Option TagMap) (tags : TagMap) (ct : String)
    (d : Bytes) : TagMap :=
  match dec d with
  | none => tags
  | some tt =>
    if ct = "CMT1" then
      dictSetS (dictSetS (dictSetS tags
        "camera_make" (dictGetS tt "Image Make" "Unknown"))
        "camera_model" (dictGetS tt "Image Model" "Unknown"))
        "date_taken" (dictGetS tt "Image DateTime" (dictGetS tt "EXIF DateTimeOriginal" "Unknown"))
    else if ct = "CMT2" then
      dictSetS (dictSetS (dictSetS (dictSetS tags
        "focal_length" (dictGetS tt "Image FocalLength" (dictGetS tt "EXIF FocalLength" "Unknown")))
        "exposure" (dictGetS tt "Image ExposureTime" (dictGetS tt "EXIF ExposureTime" "Unknown")))
        "aperture" (dictGetS tt "Image FNumber" (dictGetS tt "EXIF FNumber" "Unknown")))
        "iso" (dictGetS tt "Image ISOSpeedRatings" (dictGetS tt "EXIF ISOSpeedRatings" "Unknown"))
    else if ct = "CMT3" then
      dictSetS tags
        "lens_model" (dictGetS tt "MakerNote LensModel" (dictGetS tt "EXIF LensModel" (dictGetS tt "Image LensModel" "Unknown")))
    else tags

/-- extract_exif_tags (cr3_parser.py lines 64-103) over the dict items. -/
def extract_exif_tags (dec : Bytes → Option TagMap)
    (blocks : List (String × Bytes)) : TagMap :=
  blocks.foldl (fun tags b => processBlock dec tags b.1 b.2) []

/-- Python's \s class restricted to ASCII, as matched by strptime for a
whitespace character in the format string. -/
def isPySpace (c : Char) : Bool :=
  c = ' ' ∨ c = '\t' ∨ c = '\n' ∨ c = '\r' ∨ c.toNat = 11 ∨ c.toNat = 12

/-- Numeric value of a decimal digit character. -/
def dval (c : Char) : Nat := c.toNat - 48

/-- The %Y directive: exactly four decimal digits. -/
def take4 : List Char → Option (Nat × List Char)
  | a :: b :: c :: d :: rest =>
    if a.isDigit && b.isDigit && c.isDigit && d.isDigit then
      some (((dval a * 10 + dval b) * 10 + dval c) * 10 + dval d, rest)
    else none
  | _ => none

/-- The %m/%d/%H/%M/%S directives: one or two decimal digits, greedily.  The
value bound of each directive's pattern is checked together with the
datetime constructor ranges at the end of parseDT; because every directive is
followed by a separator or the end of the string, this is equivalent to the
backtracking regular expressions CPython's _strptime builds. -/
def take2 : List Char → Option (Nat × List Char)
  | [] => none
  | [a] => if a.isDigit then some (dval a, []) else none
  | a :: b :: rest =>
    if a.isDigit then
      if b.isDigit then some (dval a * 10 + dval b, rest)
      else some (dval a, b :: rest)
    else none

/-- A literal separator character of the format string. -/
def expectChar (c : Char) : List Char → Option (List Char)
  | x :: rest => if x = c then some rest else none
  | [] => none

/-- A whitespace character in the format string matches one or more input
whitespace characters. -/
def expectWS : List Char → Option (List Char)
  | x :: rest => if isPySpace x then some (rest.dropWhile isPySpace) else none
  | [] => none

def isLeap (y : Nat) : Bool := y % 4 = 0 ∧ (y % 100 ≠ 0 ∨ y % 400 = 0)

/-- Days per month of the proleptic Gregorian calendar used by datetime. -/
def daysInMonth (y m : Nat) : Nat :=
  if m = 2 then (if isLeap y then 29 else 28)
  else if m = 4 ∨ m = 6 ∨ m = 9 ∨ m = 11 then 30 else 31

structure DT where
  y : Nat
  m : Nat
  d : Nat
  hh : Nat
  mi : Nat
  ss : Nat
deriving DecidableEq

/-- datetime.strptime against the pattern %Y sep %m sep %d ' ' %H:%M:%S, with
the full-string consumption check and the datetime constructor's range and
calendar validation.  A second of 60 or 61 matches the %S pattern but the
constructor then raises, which the caller's except turns into the same
failure, so it is folded into the ≤ 59 check. -/
def parseDT (sep : Char) (cs : List Char) : Option DT :=
  Option.bind (take4 cs) (fun yr =>
  Option.bind (expectChar sep yr.2) (fun r1 =>
  Option.bind (take2 r1) (fun mor =>
  Option.bind (expectChar sep mor.2) (fun r3 =>
  Option.bind (take2 r3) (fun dyr =>
  Option.bind (expectWS dyr.2) (fun r5 =>
  Option.bind (take2 r5) (fun hr =>
  Option.bind (expectChar ':' hr.2) (fun r7 =>
  Option.bind (take2 r7) (fun mir =>
  Option.bind (expectChar ':' mir.2) (fun r9 =>
  Option.bind (take2 r9) (fun sr =>
    if sr.2 = [] ∧ 1 ≤ yr.1 ∧ 1 ≤ mor.1 ∧ mor.1 ≤ 12 ∧ 1 ≤ dyr.1 ∧
        dyr.1 ≤ daysInMonth yr.1 mor.1 ∧ hr.1 ≤ 23 ∧ mir.1 ≤ 59 ∧ sr.1 ≤ 59 then
      some ⟨yr.1, mor.1, dyr.1, hr.1, mir.1, sr.1⟩
    else none)))))))))))

/-- The decimal digit character of d. -/
def digitChar (d : Nat) : Char := Char.ofNat (48 + d)

/-- Decimal digit characters of n, most significant first, via fuel (the fuel
n+1 always suffices since n/10 < n). -/
def natStrF : Nat → Nat → List Char
  | 0, _ => []
  | f + 1, n =>
    if n < 10 then [digitChar n]
    else natStrF f (n / 10) ++ [digitChar (n % 10)]

def natChars (n : Nat) : List Char := natStrF (n + 1) n

def natStr (n : Nat) : String := String.mk (natChars n)

/-- %02d -/
def pad2 (n : Nat) : List Char := [digitChar (n / 10 % 10), digitChar (n % 10)]

/-- dt.strftime of the hyphen-separated canonical pattern.  The year is
emitted unpadded as glibc's %Y does; for the four-digit years reachable from
strptime's %Y this coincides with zero padding. -/
def dtChars (t : DT) : List Char :=
  natChars t.y ++ '-' :: (pad2 t.m ++ '-' :: (pad2 t.d ++ ' ' ::
    (pad2 t.hh ++ ':' :: (pad2 t.mi ++ ':' :: pad2 t.ss))))

def strftimeDT (t : DT) : String := String.mk (dtChars t)

/-- The date normalization loop of format_metadata (lines 108-116): the
colon pattern, then the hyphen pattern, then raw passthrough. -/
def format_date (s : String) : String :=
  match parseDT ':' s.data with
  | some t => strftimeDT t
  | none =>
    match parseDT '-' s.data with
    | some t => strftimeDT t
    | none => s

/-- focal_str.replace('mm', ''): left-to-right non-overlapping removal. -/
def removeMM : List Char → List Char
  | 'm' :: 'm' :: rest => removeMM rest
  | c :: rest => c :: removeMM rest
  | [] => []

/-- str.strip() -/
def stripChars (l : List Char) : List Char :=
  ((l.dropWhile isPySpace).reverse.dropWhile isPySpace).reverse

/-- str.split() with no argument: whitespace-run separated, no empty tokens. -/
def wsTokensAux : List Char → List Char → List (List Char)
  | [], acc => if acc = [] then [] else [acc.reverse]
  | c :: rest, acc =>
    if isPySpace c then
      if acc = [] then wsTokensAux rest [] else acc.reverse :: wsTokensAux rest []
    else wsTokensAux rest (c :: acc)

def wsTokens (l : List Char) : List (List Char) := wsTokensAux l []

/-- value.split('/') -/
def splitSlashAux : List Char → List Char → List (List Char)
  | [], acc => [acc.reverse]
  | c :: rest, acc =>
    if c = '/' then acc.reverse :: splitSlashAux rest []
    else splitSlashAux rest (c :: acc)

def splitSlash (l : List Char) : List (List Char) := splitSlashAux l []

def splitDigits (cs : List Char) : List Char × List Char :=
  (cs.takeWhile Char.isDigit, cs.dropWhile Char.isDigit)

def natOfDigits (ds : List Char) : Nat := ds.foldl (fun a c => a * 10 + dval c) 0

/-! Exact rational arithmetic written directly over mkRat, num and den (the
normalized-pair interface of ℚ), used as the model of Python's float
arithmetic on the values this formatter handles. -/

def natQ (n : Nat) : ℚ := mkRat (Int.ofNat n) 1

def intQ (i : Int) : ℚ := mkRat i 1

def ratMul (x y : ℚ) : ℚ := mkRat (x.num * y.num) (x.den * y.den)

def ratSub (x y : ℚ) : ℚ := mkRat (x.num * y.den - y.num * x.den) (x.den * y.den)

def ratNeg (x : ℚ) : ℚ := mkRat (-x.num) x.den

/-- x / y for y ≠ 0: a/b ÷ c/d = (a·d)/(b·c), with the sign moved to the
numerator. -/
def ratDiv (x y : ℚ) : ℚ :=
  if y.num < 0 then mkRat (-(x.num * y.den)) (x.den * y.num.natAbs)
  else mkRat (x.num * y.den) (x.den * y.num.natAbs)

/-- The floor of a rational, as floor division of numerator by denominator. -/
def ratFloor (q : ℚ) : Int := Int.fdiv q.num (Int.ofNat q.den)

/-- Ten to an integer power, as an exact rational. -/
def pow10 (e : Int) : ℚ :=
  if 0 ≤ e then mkRat (Int.ofNat (10 ^ e.toNat)) 1 else mkRat 1 (10 ^ (-e).toNat)

/-- The exponent part of a float literal: optional sign then digits, which
must consume the rest of the token. -/
def parseExpPart : List Char → Option Int
  | [] => none
  | '+' :: rest =>
    if rest ≠ [] ∧ rest.all Char.isDigit then some (natOfDigits rest : Int) else none
  | '-' :: rest =>
    if rest ≠ [] ∧ rest.all Char.isDigit then some (-(natOfDigits rest : Int)) else none
  | cs => if cs.all Char.isDigit then some (natOfDigits cs : Int) else none

/-- The unsigned body of a Python float literal: digits with an optional
point and an optional exponent; inf, nan and digit-group underscores are
modelled as parse failures. -/
def pyFloatBody (cs : List Char) : Option ℚ :=
  let ip := (splitDigits cs).1
  let r1 := (splitDigits cs).2
  match r1 with
  | '.' :: r2 =>
    let fp := (splitDigits r2).1
    let r3 := (splitDigits r2).2
    if ip = [] ∧ fp = [] then none
    else
      let mant : ℚ := mkRat (Int.ofNat (natOfDigits (ip ++ fp))) (10 ^ fp.length)
      match r3 with
      | [] => some mant
      | 'e' :: r4 => (parseExpPart r4).map (fun e => ratMul mant (pow10 e))
      | 'E' :: r4 => (parseExpPart r4).map (fun e => ratMul mant (pow10 e))
      | _ => none
  | 'e' :: r4 =>
    if ip = [] then none
    else (parseExpPart r4).map (fun e => ratMul (natQ (natOfDigits ip)) (pow10 e))
  | 'E' :: r4 =>
    if ip = [] then none
    else (parseExpPart r4).map (fun e => ratMul (natQ (natOfDigits ip)) (pow10 e))
  | [] => if ip = [] then none else some (natQ (natOfDigits ip))
  | _ => none

/-- float(token) for a whitespace-free token, as an exact rational. -/
def pyFloatL : List Char → Option ℚ
  | '+' :: rest => pyFloatBody rest
  | '-' :: rest => (pyFloatBody rest).map ratNeg
  | cs => pyFloatBody cs

/-- Fraction digits of a rational in [0,1), stopping at an exact zero
remainder (capped; only finite decimal expansions are reachable from the
plain-decimal path of the source). -/
def fracChars : Nat → ℚ → List Char
  | 0, _ => []
  | f + 1, x =>
    if x.num = 0 then []
    else digitChar (Int.toNat (ratFloor (ratMul x (natQ 10)))) ::
      fracChars f (ratSub (ratMul x (natQ 10)) (intQ (ratFloor (ratMul x (natQ 10)))))

/-- str(float) for a nonnegative finite value in the non-exponent range. -/
def pyFloatReprNN (q : ℚ) : String :=
  if q.den = 1 then natStr q.num.toNat ++ ".0"
  else natStr (Int.toNat (ratFloor q)) ++ "." ++
    String.mk (fracChars 25 (ratSub q (intQ (ratFloor q))))

/-- str(float), i.e. the f-string rendering of f"{float(value)}".  The sign
test q < 0 is the numerator sign. -/
def pyFloatRepr (q : ℚ) : String :=
  if q.num < 0 then "-" ++ pyFloatReprNN (ratNeg q) else pyFloatReprNN q

/-- Round half to even to an integer, for a nonnegative rational; the
fractional part r of x is compared with 1/2 by cross multiplication
(r < 1/2 iff 2·r.num < r.den). -/
def rheNN (x : ℚ) : Nat :=
  if 2 * (ratSub x (intQ (ratFloor x))).num < ((ratSub x (intQ (ratFloor x))).den : Int)
  then Int.toNat (ratFloor x)
  else if ((ratSub x (intQ (ratFloor x))).den : Int) < 2 * (ratSub x (intQ (ratFloor x))).num
  then Int.toNat (ratFloor x) + 1
  else if Int.toNat (ratFloor x) % 2 = 0 then Int.toNat (ratFloor x)
  else Int.toNat (ratFloor x) + 1

def fix1NN (q : ℚ) : String :=
  natStr (rheNN (ratMul q (natQ 10)) / 10) ++ "." ++ natStr (rheNN (ratMul q (natQ 10)) % 10)

/-- The f"{v:.1f}" rendering; the sign test v < 0 is the numerator sign. -/
def fix1 (q : ℚ) : String :=
  if q.num < 0 then "-" ++ fix1NN (ratNeg q) else fix1NN q

/-- The body of the focal-length try of format_metadata (lines 121-130):
strip the unit, take the first whitespace token, rational or plain decimal. -/
def tryFocal (s : String) : Option String :=
  let value := (wsTokens (stripChars (removeMM s.data))).headD []
  if value.contains '/' then
    match splitSlash value with
    | [a, b] =>
      match pyFloatL a, pyFloatL b with
      | some x, some y =>
        if y.num = 0 then none else some (fix1 (ratDiv x y) ++ " mm")
      | _, _ => none
    | _ => none
  else (pyFloatL value).map (fun q => pyFloatRepr q ++ " mm")

/-- The focal-length field of format_metadata (lines 119-132): `none` means
the key is not written at all (raw value absent or 'Unknown'); `some v`
writes v, which is 'Unknown' when the try body raised. -/
def format_focal (s : String) : Option String :=
  if s ≠ "Unknown" then some ((tryFocal s).getD "Unknown") else none

/-- The date and focal-length part of format_metadata: the dict after lines
108-132 have run (date_taken always written, focal_length conditionally). -/
def formatBase (raw : TagMap) : TagMap :=
  let f1 := dictSetS [] "date_taken" (format_date (dictGetS raw "date_taken" "Unknown"))
  match format_focal (dictGetS raw "focal_length" "Unknown") with
  | some v => dictSetS f1 "focal_length" v
  | none => f1

/-- format_metadata (cr3_parser.py lines 104-144). -/
def format_metadata (raw : TagMap) : TagMap :=
  dictSetS (dictSetS (dictSetS (dictSetS (dictSetS (dictSetS (formatBase raw)
    "camera_make" (dictGetS raw "camera_make" "Unknown"))
    "camera_model" (dictGetS raw "camera_model" "Unknown"))
    "lens_model" (dictGetS raw "lens_model" "Unknown"))
    "exposure" (dictGetS raw "exposure" "Unknown"))
    "aperture" (dictGetS raw "aperture" "Unknown"))
    "iso" (dictGetS raw "iso" "Unknown")

/-- extract_cr3_metadata (cr3_parser.py lines 146-195) on the bytes of an
opened file; `none` models a non-terminating scan, `some []` the source's
empty-dict returns. -/
def extract_cr3_metadata (fuel : Nat) (dec : Bytes → Option TagMap)
    (data : Bytes) : Option TagMap :=
  match topScan fuel data 0 with
  | none => none
  | some none => some []
  | some (some md) =>
    if md = [] then some []
    else
      match parse_container fuel md cmtTargets with
      | none => none
      | some cmt =>
        if cmt = [] then some []
        else
          let raw := extract_exif_tags dec (dictItems cmt)
          if raw = [] then some [] else some (format_metadata raw)

/-- Wire encoding of a 32-bit big-endian size. -/
def be32enc (n : Nat) : Bytes :=
  [n / 16777216 % 256, n / 65536 % 256, n / 256 % 256, n % 256]

/-- A synthetic box with a 4-byte type and the given content. -/
def mkBox (t : Bytes) (content : Bytes) : Bytes :=
  be32enc (8 + content.length) ++ t ++ content

/-- b'free', a type that is neither a target nor a container. -/
def freeType : Bytes := [102, 114, 101, 101]

/-- An 8-byte buffer whose single box declares size 0: the cursor never
advances past it. -/
def loopBuf : Bytes := [0, 0, 0, 0, 102, 114, 101, 101]

/-- A stub decoder that decodes the payload [1] and raises on anything else. -/
def cDecoder : Bytes → Option TagMap :=
  fun d => if d = [1] then some [("Image Make", "Canon")] else none

/-- A stub decoder that always raises. -/
def cDecoderNone : Bytes → Option TagMap := fun _ => none

/-- The semantic fields written by each block role (lines 73-98). -/
def fieldsOf (t : String) : List String :=
  if t = "CMT1" then ["camera_make", "camera_model", "date_taken"]
  else if t = "CMT2" then ["focal_length", "exposure", "aperture", "iso"]
  else if t = "CMT3" then ["lens_model"]
  else []

/-- The seven keys format_metadata always writes. -/
def sevenKeys : List String :=
  ["camera_make", "camera_model", "lens_model", "date_taken", "exposure", "aperture", "iso"]

/-- A valid datetime whose six fields are each within strptime's and the
constructor's ranges (the four-digit %Y bounds the year by 9999). -/
def validDT (t : DT) : Prop :=
  1 ≤ t.m ∧ t.m ≤ 12 ∧ 1 ≤ t.d ∧ t.d ≤ daysInMonth t.y t.m ∧
  t.hh ≤ 23 ∧ t.mi ≤ 59 ∧ t.ss ≤ 59 ∧ 1 ≤ t.y ∧ t.y ≤ 9999

instance (t : DT) : Decidable (validDT t) := by unfold validDT; infer_instance

/-! Helper lemmas about the byte-level readers. -/

theorem readN_len (data : Bytes) (pos n : Nat) :
    (readN data pos n).length = min n (data.length - pos) := by
  simp [readN]

theorem readN_zero (X : Bytes) (n : Nat) : readN X 0 n = X.take n := by
  simp [readN]

theorem readN_append (A B : Bytes) (n : Nat) : readN (A ++ B) A.length n = B.take n := by
  simp [readN, List.drop_left]

theorem beVal_enc (n : Nat) (h : n < 4294967296) : beVal (be32enc n) = n := by
  simp only [beVal, be32enc, List.foldl_cons, List.foldl_nil]
  omega

theorem be32enc_len (n : Nat) : (be32enc n).length = 4 := rfl

theorem rbh_short (data : Bytes) (pos : Nat) (h : data.length < pos + 4) :
    (read_box_header data pos).1 = ⟨none, none, 0⟩ := by
  have hl : (readN data pos 4).length < 4 := by rw [readN_len]; omega
  simp [read_box_header, hl]

theorem rbh_noext (data : Bytes) (pos : Nat) (h4 : pos + 4 ≤ data.length)
    (hne : beVal (readN data pos 4) ≠ 1) :
    read_box_header data pos =
      (⟨some (readN data (pos + 4) 4), some (beVal (readN data pos 4)), 8⟩,
       pos + 4 + (readN data (pos + 4) 4).length) := by
  have hlen : (readN data pos 4).length = 4 := by rw [readN_len]; omega
  simp [read_box_header, hlen, hne]

theorem rbh_ext_short (data : Bytes) (pos : Nat) (h4 : pos + 4 ≤ data.length)
    (h1 : beVal (readN data pos 4) = 1) (h16 : data.length < pos + 16) :
    (read_box_header data pos).1 = ⟨none, none, 0⟩ := by
  have hlen : (readN data pos 4).length = 4 := by rw [readN_len]; omega
  have htl : (readN data (pos + 4) 4).length = min 4 (data.length - (pos + 4)) :=
    readN_len data (pos + 4) 4
  have hext : (readN data (pos + 4 + (readN data (pos + 4) 4).length) 8).length < 8 := by
    rw [readN_len, htl]; omega
  simp [read_box_header, hlen, h1, hext]

theorem rbh_ext_ok (data : Bytes) (pos : Nat)
    (h1 : beVal (readN data pos 4) = 1) (h16 : pos + 16 ≤ data.length) :
    read_box_header data pos =
      (⟨some (readN data (pos + 4) 4), some (beVal (readN data (pos + 8) 8)), 16⟩,
       pos + 16) := by
  have hlen : (readN data pos 4).length = 4 := by rw [readN_len]; omega
  have htl : (readN data (pos + 4) 4).length = 4 := by rw [readN_len]; omega
  have hext : ¬ (readN data (pos + 4 + 4) 8).length < 8 := by rw [readN_len]; omega
  have hel : (readN data (pos + 4 + 4) 8).length = 8 := by rw [readN_len]; omega
  have h48 : pos + 4 + 4 = pos + 8 := by omega
  simp [read_box_header, hlen, h1, htl, h48, hext, hel]

/-! Lemmas about synthetic boxes. -/

theorem mkBox_len (t c : Bytes) (ht : t.length = 4) :
    (mkBox t c).length = 8 + c.length := by
  simp only [mkBox, List.length_append, be32enc_len, ht]

theorem readN_append' (A B : Bytes) (n k : Nat) (h : A.length = n) :
    readN (A ++ B) n k = B.take k := by
  subst h; exact readN_append A B k

theorem rbh_mkBox (t c rest : Bytes) (ht : t.length = 4)
    (hb : 8 + c.length < 4294967296) :
    read_box_header (mkBox t c ++ rest) 0 = (⟨some t, some (8 + c.length), 8⟩, 8) := by
  have hsz : readN (mkBox t c ++ rest) 0 4 = be32enc (8 + c.length) := by
    rw [readN_zero, mkBox, List.append_assoc, List.append_assoc]
    exact List.take_left' (be32enc_len _)
  have htype : readN (mkBox t c ++ rest) 4 4 = t := by
    rw [show mkBox t c ++ rest = be32enc (8 + c.length) ++ (t ++ (c ++ rest)) by
      simp [mkBox]]
    unfold readN
    rw [List.drop_left' (be32enc_len _)]
    exact List.take_left' ht
  have hval : beVal (readN (mkBox t c ++ rest) 0 4) = 8 + c.length := by
    rw [hsz]; exact beVal_enc _ hb
  have h4 : 0 + 4 ≤ (mkBox t c ++ rest).length := by
    rw [List.length_append, mkBox_len t c ht]; omega
  rw [rbh_noext _ _ h4 (by rw [hval]; omega)]
  simp [hval, htype, ht]

theorem readN_mkBox_content (t c rest : Bytes) (ht : t.length = 4) :
    readN (mkBox t c ++ rest) 8 c.length = c := by
  have hA : (be32enc (8 + c.length) ++ t).length = 8 := by
    rw [List.length_append, be32enc_len, ht]
  rw [show mkBox t c ++ rest = (be32enc (8 + c.length) ++ t) ++ (c ++ rest) by
    simp [mkBox]]
  rw [readN_append' _ _ _ _ hA]
  exact List.take_left c rest

/-! Claim C2: non-termination of parse_container on a zero-size box. -/

theorem parseStep_loopBuf (rec : Bytes → Option BoxMap) (acc : BoxMap) :
    parseStep rec loopBuf cmtTargets 0 acc = some (Sum.inr (0, acc)) := rfl

/-- Claim C2: the claim says parse_container terminates on every input, and
in particular that a box of declared size 0 (whose next-box offset does not
advance the cursor) must not cause an infinite loop.  The code violates
this: on the 8-byte buffer whose single box declares size 0, every iteration
re-reads the same header and seeks back to offset 0, so the loop of
parse_container runs forever — for every fuel bound, and from every
accumulator state, the loop fails to terminate. -/
theorem spec_C2 :
    (∀ (f : Nat) (acc : BoxMap), parseLoop f loopBuf cmtTargets 0 acc = none) ∧
    (∀ f : Nat, parse_container f loopBuf cmtTargets = none) := by
  have h : ∀ (f : Nat) (acc : BoxMap), parseLoop f loopBuf cmtTargets 0 acc = none := by
    intro f
    induction f with
    | zero => intro acc; rfl
    | succ f ih =>
      intro acc
      have hs : parseStep (fun d => parseLoop f d cmtTargets 0 []) loopBuf cmtTargets 0 acc
          = some (Sum.inr (0, acc)) := parseStep_loopBuf _ _
      simp only [parseLoop, hs]
      exact ih acc
  exact ⟨h, fun f => h f []⟩

/-! Claim C3: the exact failure behaviour of read_box_header. -/

/-- Claim C3 counterexample: the claim says a read with fewer than 4 bytes
remaining for the type code returns the failure sentinel (type absent,
size 0).  On the 5-byte buffer below (size field 16, then a single spare
byte) only one byte remains for the type code, yet read_box_header returns
the truncated one-byte type with the declared size — not the sentinel. -/
theorem spec_C3_cex :
    (read_box_header [0, 0, 0, 16, 109] 0).1 = ⟨some [109], some 16, 8⟩ ∧
    (readN [0, 0, 0, 16, 109] 4 4).length < 4 ∧
    (read_box_header [0, 0, 0, 16, 109] 0).1.boxType ≠ none := by
  refine ⟨rfl, by decide, by decide⟩

/-- Claim C3, amended: read_box_header is total (the model needs no
exception path), and it returns the failure sentinel (None, None, 0)
exactly when fewer than 4 bytes remain for the size field, or the size
field equals 1 and fewer than 16 bytes remain in total for the extended
header.  A short type-code read with an ordinary size field is NOT detected:
the truncated (possibly empty) type bytes are returned together with the
declared size — the walker only stops on it because empty bytes are falsy.
On success the returned triple is the type bytes, the total size (extended
when the size field is 1) and the header length 8 or 16. -/
theorem spec_C3 : ∀ (data : Bytes) (pos : Nat),
    ((read_box_header data pos).1.boxType = none ↔
      (data.length < pos + 4 ∨
        (pos + 4 ≤ data.length ∧ beVal (readN data pos 4) = 1 ∧ data.length < pos + 16)))
    ∧ ((read_box_header data pos).1.boxType = none →
        (read_box_header data pos).1 = ⟨none, none, 0⟩)
    ∧ (∀ t, (read_box_header data pos).1.boxType = some t →
        t = readN data (pos + 4) 4 ∧
        (read_box_header data pos).1.boxSize = some (if beVal (readN data pos 4) = 1
          then beVal (readN data (pos + 8) 8) else beVal (readN data pos 4)) ∧
        (read_box_header data pos).1.headerSize =
          (if beVal (readN data pos 4) = 1 then 16 else 8)) := by
  intro data pos
  by_cases h4 : pos + 4 ≤ data.length
  · by_cases h1 : beVal (readN data pos 4) = 1
    · by_cases h16 : pos + 16 ≤ data.length
      · rw [rbh_ext_ok data pos h1 h16]
        refine ⟨by simp; omega, by simp, ?_⟩
        intro t ht
        simp only [BoxHeader.mk.injEq] at ht ⊢
        refine ⟨by simpa using ht.symm, by simp [h1], by simp [h1]⟩
      · have hs := rbh_ext_short data pos h4 h1 (by omega)
        rw [hs]
        exact ⟨by simp; omega, fun _ => rfl, fun t ht => by simp at ht⟩
    · rw [rbh_noext data pos h4 h1]
      refine ⟨by simp [h1]; omega, by simp, ?_⟩
      intro t ht
      simp only at ht
      refine ⟨by simpa using ht.symm, by simp [h1], by simp [h1]⟩
  · have hs := rbh_short data pos (by omega)
    rw [hs]
    exact ⟨by simp; omega, fun _ => rfl, fun t ht => by simp at ht⟩

/-- Claim C3 witness: the success shape of spec_C3 applied to a concrete
buffer whose box declares size 2 with type 'abcd'. -/
theorem spec_C3_w :
    ([97, 98, 99, 100] : Bytes) = readN [0, 0, 0, 2, 97, 98, 99, 100] (0 + 4) 4 ∧
    (read_box_header [0, 0, 0, 2, 97, 98, 99, 100] 0).1.boxSize =
      some (if beVal (readN [0, 0, 0, 2, 97, 98, 99, 100] 0 4) = 1
        then beVal (readN [0, 0, 0, 2, 97, 98, 99, 100] (0 + 8) 8)
        else beVal (readN [0, 0, 0, 2, 97, 98, 99, 100] 0 4)) ∧
    (read_box_header [0, 0, 0, 2, 97, 98, 99, 100] 0).1.headerSize =
      (if beVal (readN [0, 0, 0, 2, 97, 98, 99, 100] 0 4) = 1 then 16 else 8) :=
  (spec_C3 [0, 0, 0, 2, 97, 98, 99, 100] 0).2.2 [97, 98, 99, 100] (by decide)

/-! Facts about the fixed type codes. -/

theorem mem_cmt_len : ∀ t ∈ cmtTargets, t.length = 4 := by decide

theorem mem_container_len : ∀ t ∈ containerTypes, t.length = 4 := by decide

theorem cmt_ne_uuid : ∀ t ∈ cmtTargets, t ≠ uuidType := by decide

theorem container_ne_uuid : ∀ t ∈ containerTypes, t ≠ uuidType := by decide

theorem container_not_target : ∀ t ∈ containerTypes, t ∉ cmtTargets := by decide

theorem uuid_not_target : uuidType ∉ cmtTargets := by decide

theorem uuid_not_container : uuidType ∉ containerTypes := by decide

/-! Lemmas driving the walker over synthetic boxes. -/

theorem parseLoop_end (f : Nat) (data : Bytes) (targets : List Bytes) (pos : Nat)
    (acc : BoxMap) (hf : 1 ≤ f) (h : ¬ pos < data.length) :
    parseLoop f data targets pos acc = some acc := by
  obtain ⟨f', rfl⟩ : ∃ f', f = f' + 1 := ⟨f - 1, by omega⟩
  simp [parseLoop, parseStep, h]

theorem mkBox_content_eval (t c : Bytes) (ht : t.length = 4) :
    (if 8 < 8 + c.length then readN (mkBox t c) 8 (8 + c.length - 8) else []) = c := by
  by_cases hp : 0 < c.length
  · rw [if_pos (by omega)]
    have h := readN_mkBox_content t c [] ht
    rw [List.append_nil] at h
    simpa using h
  · have hc : c = [] := List.length_eq_zero.mp (by omega)
    subst hc; simp

theorem parseStep_mkBox (rec : Bytes → Option BoxMap) (t c : Bytes)
    (ht : t.length = 4) (hb : 8 + c.length < 4294967296) :
    parseStep rec (mkBox t c) cmtTargets 0 [] =
      (if t = uuidType ∧ canonUUID.isPrefixOf c then
        (rec (c.drop 16)).map (fun sub => Sum.inr (8 + c.length, dictUpdate [] sub))
      else if t ∈ cmtTargets then some (Sum.inr (8 + c.length, [(strOfBytes t, c)]))
      else if t ∈ containerTypes then
        (rec c).map (fun sub => Sum.inr (8 + c.length, dictUpdate [] sub))
      else some (Sum.inr (8 + c.length, ([] : BoxMap)))) := by
  have hhdr := rbh_mkBox t c [] ht hb
  rw [List.append_nil] at hhdr
  have hlen := mkBox_len t c ht
  have hne : t ≠ [] := by intro h; rw [h] at ht; simp at ht
  have hcontent := mkBox_content_eval t c ht
  unfold parseStep
  rw [if_pos (by rw [hlen]; omega), hhdr]
  simp only [Option.getD_some, hne, if_false, hcontent, dictSet]
  by_cases h1 : t = uuidType ∧ canonUUID.isPrefixOf c
  · simp [h1, Option.map_map, Function.comp_def, Nat.zero_add]
  · rw [if_neg h1, if_neg h1]
    by_cases h2 : t ∈ cmtTargets
    · simp [h2, Nat.zero_add]
    · rw [if_neg h2, if_neg h2]
      by_cases h3 : t ∈ containerTypes
      · simp [h3, Option.map_map, Function.comp_def, Nat.zero_add]
      · simp [h3, Nat.zero_add]

theorem parseLoop_mkBox_target (f : Nat) (t p : Bytes) (hf : 2 ≤ f)
    (htgt : t ∈ cmtTargets) (hb : 8 + p.length < 4294967296) :
    parseLoop f (mkBox t p) cmtTargets 0 [] = some [(strOfBytes t, p)] := by
  obtain ⟨f', rfl⟩ : ∃ f', f = f' + 1 := ⟨f - 1, by omega⟩
  have ht : t.length = 4 := mem_cmt_len t htgt
  have hstep := parseStep_mkBox (fun d => parseLoop f' d cmtTargets 0 []) t p ht hb
  rw [if_neg (fun h => cmt_ne_uuid t htgt h.1), if_pos htgt] at hstep
  simp only [parseLoop, hstep]
  exact parseLoop_end f' _ _ _ _ (by omega) (by rw [mkBox_len t p ht]; omega)

theorem parseLoop_mkBox_container (f : Nat) (c inner : Bytes) (m : BoxMap) (hf : 1 ≤ f)
    (hcin : c ∈ containerTypes) (hb : 8 + inner.length < 4294967296)
    (hrec : parseLoop f inner cmtTargets 0 [] = some m) :
    parseLoop (f + 1) (mkBox c inner) cmtTargets 0 [] = some m := by
  have hc : c.length = 4 := mem_container_len c hcin
  have hstep := parseStep_mkBox (fun d => parseLoop f d cmtTargets 0 []) c inner hc hb
  rw [if_neg (fun h => container_ne_uuid c hcin h.1),
      if_neg (container_not_target c hcin), if_pos hcin,
      show (fun d => parseLoop f d cmtTargets 0 []) inner = some m from hrec] at hstep
  simp only [parseLoop, hstep, Option.map_some']
  have := parseLoop_end f (mkBox c inner) cmtTargets (8 + inner.length)
    (dictUpdate [] m) hf (by rw [mkBox_len c inner hc]; omega)
  rw [this]
  simp [dictUpdate]

theorem parseLoop_mkBox_uuid (f : Nat) (inner : Bytes) (m : BoxMap) (hf : 1 ≤ f)
    (hb : 24 + inner.length < 4294967296)
    (hrec : parseLoop f inner cmtTargets 0 [] = some m) :
    parseLoop (f + 1) (mkBox uuidType (canonUUID ++ inner)) cmtTargets 0 [] = some m := by
  have hb' : 8 + (canonUUID ++ inner).length < 4294967296 := by
    rw [List.length_append]; simp [canonUUID]; omega
  have hstep := parseStep_mkBox (fun d => parseLoop f d cmtTargets 0 [])
    uuidType (canonUUID ++ inner) rfl hb'
  have hpre : canonUUID.isPrefixOf (canonUUID ++ inner) = true :=
    List.isPrefixOf_iff_prefix.mpr (List.prefix_append _ _)
  have hdrop : (canonUUID ++ inner).drop 16 = inner :=
    List.drop_left' (by decide : canonUUID.length = 16)
  rw [if_pos ⟨rfl, hpre⟩, hdrop,
      show (fun d => parseLoop f d cmtTargets 0 []) inner = some m from hrec] at hstep
  simp only [parseLoop, hstep, Option.map_some']
  have := parseLoop_end f (mkBox uuidType (canonUUID ++ inner)) cmtTargets
    (8 + (canonUUID ++ inner).length) (dictUpdate [] m) hf
    (by rw [mkBox_len uuidType (canonUUID ++ inner) rfl]; omega)
  rw [this]
  simp [dictUpdate]

theorem parseLoop_mkBox_uuid_other (f : Nat) (content : Bytes) (hf : 1 ≤ f)
    (hb : 8 + content.length < 4294967296)
    (hnp : canonUUID.isPrefixOf content = false) :
    parseLoop (f + 1) (mkBox uuidType content) cmtTargets 0 [] = some [] := by
  have hstep := parseStep_mkBox (fun d => parseLoop f d cmtTargets 0 [])
    uuidType content rfl hb
  rw [if_neg (fun h => by rw [hnp] at h; exact Bool.false_ne_true h.2),
      if_neg uuid_not_target, if_neg uuid_not_container] at hstep
  simp only [parseLoop, hstep]
  exact parseLoop_end f _ _ _ _ hf (by rw [mkBox_len uuidType content rfl]; omega)

/-- Claim C5: a uuid box whose content starts with the exact 16-byte Canon
vendor UUID is recursed on with the prefix stripped and the results merged
(most recent write winning, third conjunct); a uuid box with any other
leading 16 bytes (isPrefixOf false) is ignored entirely — the walker returns
the empty map no matter what target blocks its content contains. -/
theorem spec_C5 :
    (∀ (f : Nat) (inner : Bytes) (m : BoxMap), 1 ≤ f →
        24 + inner.length < 4294967296 →
        parse_container f inner cmtTargets = some m →
        parse_container (f + 1) (mkBox uuidType (canonUUID ++ inner)) cmtTargets = some m)
    ∧ (∀ (f : Nat) (content : Bytes), 1 ≤ f →
        8 + content.length < 4294967296 →
        canonUUID.isPrefixOf content = false →
        parse_container (f + 1) (mkBox uuidType content) cmtTargets = some [])
    ∧ (∀ (acc sub : BoxMap) (k : String),
        dlookupB (dictUpdate acc sub) k =
          if (dlookupB sub k).isSome then dlookupB sub k else dlookupB acc k) := by
  refine ⟨?_, ?_, ?_⟩
  · intro f inner m hf hb hrec
    exact parseLoop_mkBox_uuid f inner m hf hb hrec
  · intro f content hf hb hnp
    exact parseLoop_mkBox_uuid_other f content hf hb hnp
  · intro acc sub k
    induction sub with
    | nil => simp [dictUpdate, dlookupB]
    | cons h rest ih =>
      obtain ⟨k', v'⟩ := h
      by_cases hk : k = k'
      · simp [dictUpdate, dlookupB, hk]
      · simpa [dictUpdate, dlookupB, hk] using ih

/-- Claim C5 witness: a Canon-prefixed uuid box wrapping a CMT1 box yields
that block; the same box with 16 zero bytes instead of the Canon UUID is
ignored although a CMT1 box follows the bogus prefix. -/
theorem spec_C5_w :
    parse_container 3 (mkBox uuidType (canonUUID ++ mkBox cmt1 [5])) cmtTargets
      = some [("CMT1", [5])] ∧
    parse_container 2 (mkBox uuidType (List.replicate 16 0 ++ mkBox cmt1 [5])) cmtTargets
      = some [] := by
  constructor
  · exact spec_C5.1 2 (mkBox cmt1 [5]) [("CMT1", [5])] (by omega) (by decide) (by decide)
  · exact spec_C5.2.1 1 (List.replicate 16 0 ++ mkBox cmt1 [5]) (by omega) (by decide) (by decide)

theorem foldr_mkBox_len (chain : List Bytes) (base : Bytes)
    (h4 : ∀ c ∈ chain, c.length = 4) :
    (chain.foldr mkBox base).length = 8 * chain.length + base.length := by
  induction chain with
  | nil => simp
  | cons c cs ih =>
    have hm := mkBox_len c (cs.foldr mkBox base) (h4 c (by simp))
    have hr := ih (fun x hx => h4 x (by simp [hx]))
    simp only [List.foldr_cons, hm, hr, List.length_cons]
    ring

theorem parse_nest : ∀ (chain : List Bytes) (tgt payload : Bytes),
    tgt ∈ cmtTargets → (∀ c ∈ chain, c ∈ containerTypes) →
    payload.length + 8 * (chain.length + 1) < 4294967296 →
    parse_container (chain.length + 2) (chain.foldr mkBox (mkBox tgt payload)) cmtTargets
      = some [(strOfBytes tgt, payload)] := by
  intro chain
  induction chain with
  | nil =>
    intro tgt payload htgt _ hb
    simp only [List.foldr_nil, List.length_nil, Nat.zero_add]
    exact parseLoop_mkBox_target 2 tgt payload (by omega) htgt (by simp at hb; omega)
  | cons c cs ih =>
    intro tgt payload htgt hall hb
    have hcin : c ∈ containerTypes := hall c (by simp)
    have hall' : ∀ x ∈ cs, x ∈ containerTypes := fun x hx => hall x (by simp [hx])
    have hb' : payload.length + 8 * (cs.length + 1) < 4294967296 := by
      simp only [List.length_cons] at hb; omega
    have hinner := ih tgt payload htgt hall' hb'
    have h4 : ∀ x ∈ cs, x.length = 4 := fun x hx => mem_container_len x (hall' x hx)
    have hlen : (cs.foldr mkBox (mkBox tgt payload)).length
        = 8 * cs.length + (8 + payload.length) := by
      rw [foldr_mkBox_len cs _ h4, mkBox_len tgt payload (mem_cmt_len tgt htgt)]
    have houter := parseLoop_mkBox_container (cs.length + 2) c
      (cs.foldr mkBox (mkBox tgt payload)) [(strOfBytes tgt, payload)] (by omega) hcin
      (by rw [hlen]; simp only [List.length_cons] at hb; omega) hinner
    have harith : (c :: cs).length + 2 = (cs.length + 2) + 1 := by
      simp only [List.length_cons]
    rw [List.foldr_cons, harith]
    exact houter

/-- Claim C6: a target block nested below any chain of the five container
types (depth 1 through 4) is found by parse_container with the four CMT
targets, and its payload is stored under its decoded identifier. -/
theorem spec_C6 : ∀ (chain : List Bytes) (tgt payload : Bytes),
    tgt ∈ cmtTargets → 1 ≤ chain.length → chain.length ≤ 4 →
    (∀ c ∈ chain, c ∈ containerTypes) →
    payload.length + 8 * (chain.length + 1) < 4294967296 →
    ∃ m, parse_container (chain.length + 2)
        (chain.foldr mkBox (mkBox tgt payload)) cmtTargets = some m ∧
      dlookupB m (strOfBytes tgt) = some payload := by
  intro chain tgt payload htgt _ _ hall hb
  exact ⟨[(strOfBytes tgt, payload)], parse_nest chain tgt payload htgt hall hb,
    by simp [dlookupB]⟩

/-- Claim C6 witness: a CMT1 block at depth 1 under a moov container. -/
theorem spec_C6_w :
    ∃ m, parse_container 3 (mkBox moovType (mkBox cmt1 [1, 2, 3])) cmtTargets = some m ∧
      dlookupB m (strOfBytes cmt1) = some [1, 2, 3] := by
  have h := spec_C6 [moovType] cmt1 [1, 2, 3] (by decide) (by decide) (by decide)
    (by decide) (by norm_num)
  simpa using h

theorem rbh_size_some (data : Bytes) (pos : Nat) :
    ∀ tb bs hsv q, read_box_header data pos = (⟨some tb, bs, hsv⟩, q) →
      ∃ s, bs = some s := by
  intro tb bs hsv q h
  by_cases h4 : pos + 4 ≤ data.length
  · by_cases h1 : beVal (readN data pos 4) = 1
    · by_cases h16 : pos + 16 ≤ data.length
      · rw [rbh_ext_ok data pos h1 h16] at h
        simp only [Prod.mk.injEq, BoxHeader.mk.injEq] at h
        exact ⟨_, h.1.2.1.symm⟩
      · have hs := rbh_ext_short data pos h4 h1 (by omega)
        rw [Prod.ext_iff] at h
        rw [hs] at h
        simp at h
    · rw [rbh_noext data pos h4 h1] at h
      simp only [Prod.mk.injEq, BoxHeader.mk.injEq] at h
      exact ⟨_, h.1.2.1.symm⟩
  · have hs := rbh_short data pos (by omega)
    rw [Prod.ext_iff] at h
    rw [hs] at h
    simp at h

/-- Claim C7: whenever an iteration of the walker's loop completes (the box
header was read successfully and the dispatch produced a result), the next
cursor position handed to the following iteration is exactly
box_start + declared box_size, regardless of what the dispatch consumed;
concretely, a junk box with unscanned content does not desynchronize the
scan and its target sibling is still found. -/
theorem spec_C7 :
    (∀ (rec : Bytes → Option BoxMap) (data : Bytes) (targets : List Bytes)
        (pos : Nat) (acc : BoxMap) (p2 : Nat) (acc2 : BoxMap),
      parseStep rec data targets pos acc = some (Sum.inr (p2, acc2)) →
      ∃ t s hs q, read_box_header data pos = (⟨some t, some s, hs⟩, q) ∧ p2 = pos + s)
    ∧ parse_container 3 (mkBox freeType [9, 9, 9] ++ mkBox cmt1 [7]) cmtTargets
        = some [("CMT1", [7])] := by
  constructor
  · intro rec data targets pos acc p2 acc2 h
    unfold parseStep at h
    by_cases hp : pos < data.length
    · rw [if_pos hp] at h
      rcases hh : read_box_header data pos with ⟨⟨bt, bs, hsv⟩, q⟩
      rw [hh] at h
      cases bt with
      | none => simp at h
      | some tb =>
        by_cases hnil : tb = []
        · simp [hnil] at h
        · simp only [hnil, if_false] at h
          obtain ⟨s, rfl⟩ := rbh_size_some data pos tb bs hsv q hh
          rw [Option.map_eq_some'] at h
          obtain ⟨a, _, hfa⟩ := h
          simp only [Sum.inr.injEq, Prod.mk.injEq] at hfa
          exact ⟨tb, s, hsv, q, rfl, hfa.1.symm⟩
    · rw [if_neg hp] at h
      simp at h
  · decide

/-- Claim C7 witness: the step on a concrete CMT1 box advances the cursor to
0 + its declared size 9. -/
theorem spec_C7_w :
    ∃ t s hs q, read_box_header (mkBox cmt1 [7]) 0 = (⟨some t, some s, hs⟩, q) ∧
      (9 : Nat) = 0 + s :=
  spec_C7.1 (fun _ => none) (mkBox cmt1 [7]) cmtTargets 0 [] 9 [("CMT1", [7])] (by decide)

/-! Lemmas on the string-keyed dictionaries. -/

theorem dlookupS_set (m : TagMap) (k v key : String) :
    dlookupS (dictSetS m k v) key = if key = k then some v else dlookupS m key := rfl

theorem hasKeyS_set_self (m : TagMap) (k v : String) :
    hasKeyS (dictSetS m k v) k = true := by
  simp [hasKeyS, dlookupS_set]

theorem hasKeyS_set_mono (m : TagMap) (k k' v : String) (h : hasKeyS m k = true) :
    hasKeyS (dictSetS m k' v) k = true := by
  rw [hasKeyS, dlookupS_set]
  by_cases hk : k = k'
  · simp [hk]
  · simp only [hk, if_false]
    exact h

theorem hasKeyS_set_ne (m : TagMap) (k k' v : String) (h : k ≠ k') :
    hasKeyS (dictSetS m k' v) k = hasKeyS m k := by
  simp [hasKeyS, dlookupS_set, h]

/-! Claim C9: per-block fault isolation in extract_exif_tags. -/

theorem processBlock_none (dec : Bytes → Option TagMap) (tags : TagMap)
    (ct : String) (d : Bytes) (h : dec d = none) :
    processBlock dec tags ct d = tags := by
  simp [processBlock, h]

theorem hasKeyS_processBlock_mono (dec : Bytes → Option TagMap) (tags : TagMap)
    (ct : String) (d : Bytes) (k : String) (h : hasKeyS tags k = true) :
    hasKeyS (processBlock dec tags ct d) k = true := by
  unfold processBlock
  cases hd : dec d with
  | none => exact h
  | some tt =>
    by_cases h1 : ct = "CMT1"
    · simp only [h1, if_pos rfl]
      exact hasKeyS_set_mono _ _ _ _ (hasKeyS_set_mono _ _ _ _ (hasKeyS_set_mono _ _ _ _ h))
    · by_cases h2 : ct = "CMT2"
      · simp only [h1, h2, if_false, if_pos rfl]
        exact hasKeyS_set_mono _ _ _ _ (hasKeyS_set_mono _ _ _ _
          (hasKeyS_set_mono _ _ _ _ (hasKeyS_set_mono _ _ _ _ h)))
      · by_cases h3 : ct = "CMT3"
        · simp only [h1, h2, h3, if_false, if_pos rfl]
          exact hasKeyS_set_mono _ _ _ _ h
        · simp only [h1, h2, h3, if_false]
          exact h

theorem extract_foldl_mono (blocks : List (String × Bytes)) :
    ∀ (dec : Bytes → Option TagMap) (init : TagMap) (k : String),
    hasKeyS init k = true →
    hasKeyS (blocks.foldl (fun tags b => processBlock dec tags b.1 b.2) init) k = true := by
  induction blocks with
  | nil => intro dec init k h; exact h
  | cons b bs ih =>
    intro dec init k h
    rw [List.foldl_cons]
    exact ih dec _ k (hasKeyS_processBlock_mono dec init b.1 b.2 k h)

theorem processBlock_writes (dec : Bytes → Option TagMap) (tags : TagMap)
    (ct : String) (d : Bytes) (tt : TagMap) (k : String)
    (hd : dec d = some tt) (hk : k ∈ fieldsOf ct) :
    hasKeyS (processBlock dec tags ct d) k = true := by
  unfold processBlock
  rw [hd]
  unfold fieldsOf at hk
  by_cases h1 : ct = "CMT1"
  · rw [if_pos h1] at hk
    simp only [h1, if_pos rfl]
    simp only [List.mem_cons, List.not_mem_nil, or_false] at hk
    rcases hk with rfl | rfl | rfl
    · exact hasKeyS_set_mono _ _ _ _ (hasKeyS_set_mono _ _ _ _ (hasKeyS_set_self _ _ _))
    · exact hasKeyS_set_mono _ _ _ _ (hasKeyS_set_self _ _ _)
    · exact hasKeyS_set_self _ _ _
  · rw [if_neg h1] at hk
    by_cases h2 : ct = "CMT2"
    · rw [if_pos h2] at hk
      simp only [h1, h2, if_false, if_pos rfl]
      simp only [List.mem_cons, List.not_mem_nil, or_false] at hk
      rcases hk with rfl | rfl | rfl | rfl
      · exact hasKeyS_set_mono _ _ _ _ (hasKeyS_set_mono _ _ _ _
          (hasKeyS_set_mono _ _ _ _ (hasKeyS_set_self _ _ _)))
      · exact hasKeyS_set_mono _ _ _ _ (hasKeyS_set_mono _ _ _ _ (hasKeyS_set_self _ _ _))
      · exact hasKeyS_set_mono _ _ _ _ (hasKeyS_set_self _ _ _)
      · exact hasKeyS_set_self _ _ _
    · rw [if_neg h2] at hk
      by_cases h3 : ct = "CMT3"
      · rw [if_pos h3] at hk
        simp only [h1, h2, h3, if_false, if_pos rfl]
        simp only [List.mem_cons, List.not_mem_nil, or_false] at hk
        rcases hk with rfl
        exact hasKeyS_set_self _ _ _
      · rw [if_neg h3] at hk
        simp at hk

theorem extract_writes (blocks : List (String × Bytes)) :
    ∀ (dec : Bytes → Option TagMap) (t : String) (d : Bytes) (tt : TagMap) (k : String),
    (t, d) ∈ blocks → dec d = some tt → k ∈ fieldsOf t →
    ∀ init, hasKeyS (blocks.foldl (fun tags b => processBlock dec tags b.1 b.2) init) k
      = true := by
  induction blocks with
  | nil => intro dec t d tt k hmem; simp at hmem
  | cons b bs ih =>
    intro dec t d tt k hmem hd hk init
    rw [List.foldl_cons]
    rcases List.mem_cons.mp hmem with heq | hmem'
    · have hb1 : b.1 = t := by rw [← heq]
      have hb2 : b.2 = d := by rw [← heq]
      rw [hb1, hb2]
      exact extract_foldl_mono bs dec _ k (processBlock_writes dec init t d tt k hd hk)
    · exact ih dec t d tt k hmem' hd hk _

theorem extract_filter (blocks : List (String × Bytes)) :
    ∀ (dec : Bytes → Option TagMap) (init : TagMap),
    blocks.foldl (fun tags b => processBlock dec tags b.1 b.2) init =
      (blocks.filter (fun b => (dec b.2).isSome)).foldl
        (fun tags b => processBlock dec tags b.1 b.2) init := by
  induction blocks with
  | nil => intro dec init; rfl
  | cons b bs ih =>
    intro dec init
    rw [List.foldl_cons, List.filter_cons]
    cases hd : dec b.2 with
    | none =>
      rw [if_neg (by simp [hd])]
      rw [processBlock_none dec init b.1 b.2 hd]
      exact ih dec init
    | some tt =>
      rw [if_pos (by simp [hd]), List.foldl_cons]
      exact ih dec _

/-- Claim C9: a decode failure (raised exception, modelled as `none`) for one
block leaves the result exactly as if that block were absent — the other
blocks are still processed (first conjunct) — and every semantic field of a
block whose decode succeeds is present in the returned tag map (second
conjunct). -/
theorem spec_C9 :
    (∀ (dec : Bytes → Option TagMap) (blocks : List (String × Bytes)),
      extract_exif_tags dec blocks =
        extract_exif_tags dec (blocks.filter (fun b => (dec b.2).isSome)))
    ∧ (∀ (dec : Bytes → Option TagMap) (blocks : List (String × Bytes))
        (t : String) (d : Bytes) (tt : TagMap) (k : String),
      (t, d) ∈ blocks → dec d = some tt → k ∈ fieldsOf t →
      hasKeyS (extract_exif_tags dec blocks) k = true) := by
  constructor
  · intro dec blocks
    exact extract_filter blocks dec []
  · intro dec blocks t d tt k hmem hd hk
    exact extract_writes blocks dec t d tt k hmem hd hk []

/-- Claim C9 witness: with a decoder that decodes the CMT1 payload and
raises on the CMT2 payload, the CMT1 fields are still extracted. -/
theorem spec_C9_w :
    hasKeyS (extract_exif_tags cDecoder [("CMT1", [1]), ("CMT2", [2])]) "camera_make"
      = true :=
  spec_C9.2 cDecoder [("CMT1", [1]), ("CMT2", [2])] "CMT1" [1]
    [("Image Make", "Canon")] "camera_make" (by simp) (by decide) (by decide)

/-! Claim C10: the focal_length key is present iff the raw value is usable. -/

theorem format_focal_unknown : format_focal "Unknown" = none := by
  simp [format_focal]

theorem format_focal_some (s : String) (h : s ≠ "Unknown") :
    format_focal s = some ((tryFocal s).getD "Unknown") := by
  simp [format_focal, h]

theorem hasKeyS_formatBase_date (raw : TagMap) :
    hasKeyS (formatBase raw) "date_taken" = true := by
  unfold formatBase
  cases format_focal (dictGetS raw "focal_length" "Unknown") with
  | none => exact hasKeyS_set_self _ _ _
  | some v => exact hasKeyS_set_mono _ _ _ _ (hasKeyS_set_self _ _ _)

theorem hasKeyS_formatBase_focal (raw : TagMap) :
    hasKeyS (formatBase raw) "focal_length" = true ↔
      dictGetS raw "focal_length" "Unknown" ≠ "Unknown" := by
  unfold formatBase
  by_cases h : dictGetS raw "focal_length" "Unknown" = "Unknown"
  · rw [h, format_focal_unknown]
    rw [hasKeyS_set_ne _ _ _ _ (by decide)]
    simp [hasKeyS, dlookupS, h]
  · rw [format_focal_some _ h]
    simp only [hasKeyS_set_self, h]
    simp only [true_iff]
    exact h

/-- Claim C10: the result of format_metadata contains the focal_length key
exactly when the raw map holds a focal_length value different from
'Unknown'; an absent raw entry defaults to 'Unknown' and the key is then
omitted entirely. -/
theorem spec_C10 : ∀ raw : TagMap,
    hasKeyS (format_metadata raw) "focal_length" = true ↔
      dictGetS raw "focal_length" "Unknown" ≠ "Unknown" := by
  intro raw
  unfold format_metadata
  rw [hasKeyS_set_ne _ _ _ _ (by decide), hasKeyS_set_ne _ _ _ _ (by decide),
      hasKeyS_set_ne _ _ _ _ (by decide), hasKeyS_set_ne _ _ _ _ (by decide),
      hasKeyS_set_ne _ _ _ _ (by decide), hasKeyS_set_ne _ _ _ _ (by decide)]
  exact hasKeyS_formatBase_focal raw

/-- Claim C10 witness: a usable raw focal length produces the key. -/
theorem spec_C10_w :
    hasKeyS (format_metadata [("focal_length", "50/1")]) "focal_length" = true :=
  (spec_C10 [("focal_length", "50/1")]).mpr (by decide)

/-! Claim C8: date normalization lemmas. -/

theorem digitChar_isDigit (d : Nat) (h : d < 10) : (digitChar d).isDigit = true := by
  interval_cases d <;> decide

theorem dval_digitChar (d : Nat) (h : d < 10) : dval (digitChar d) = d := by
  interval_cases d <;> decide

theorem digitChar_not_space (d : Nat) (h : d < 10) :
    isPySpace (digitChar d) = false := by
  interval_cases d <;> decide

theorem natStrF_pos (f n : Nat) (hf : 0 < f) :
    natStrF f n = if n < 10 then [digitChar n]
      else natStrF (f - 1) (n / 10) ++ [digitChar (n % 10)] := by
  obtain ⟨f', rfl⟩ : ∃ f', f = f' + 1 := ⟨f - 1, by omega⟩
  simp [natStrF]

theorem natChars_four (y : Nat) (h1 : 1000 ≤ y) (h2 : y ≤ 9999) :
    natChars y = [digitChar (y / 1000), digitChar (y / 100 % 10),
      digitChar (y / 10 % 10), digitChar (y % 10)] := by
  unfold natChars
  rw [natStrF_pos (y + 1) y (by omega), if_neg (by omega)]
  rw [natStrF_pos (y + 1 - 1) (y / 10) (by omega), if_neg (by omega)]
  rw [natStrF_pos (y + 1 - 1 - 1) (y / 10 / 10) (by omega), if_neg (by omega)]
  rw [natStrF_pos (y + 1 - 1 - 1 - 1) (y / 10 / 10 / 10) (by omega),
      if_pos (by omega)]
  have e1 : y / 10 / 10 / 10 = y / 1000 := by
    rw [Nat.div_div_eq_div_mul, Nat.div_div_eq_div_mul]
  have e2 : y / 10 / 10 % 10 = y / 100 % 10 := by
    rw [Nat.div_div_eq_div_mul]
  rw [e1, e2]
  simp

theorem take4_digits (d1 d2 d3 d4 : Nat) (rest : List Char)
    (h1 : d1 < 10) (h2 : d2 < 10) (h3 : d3 < 10) (h4 : d4 < 10) :
    take4 (digitChar d1 :: digitChar d2 :: digitChar d3 :: digitChar d4 :: rest)
      = some (((d1 * 10 + d2) * 10 + d3) * 10 + d4, rest) := by
  simp [take4, digitChar_isDigit _ h1, digitChar_isDigit _ h2,
    digitChar_isDigit _ h3, digitChar_isDigit _ h4,
    dval_digitChar _ h1, dval_digitChar _ h2, dval_digitChar _ h3, dval_digitChar _ h4]

theorem take4_natChars (y : Nat) (h1 : 1000 ≤ y) (h2 : y ≤ 9999) (rest : List Char) :
    take4 (natChars y ++ rest) = some (y, rest) := by
  rw [natChars_four y h1 h2]
  simp only [List.cons_append, List.nil_append]
  rw [take4_digits _ _ _ _ rest (by omega) (by omega) (by omega) (by omega)]
  have : ((y / 1000 * 10 + y / 100 % 10) * 10 + y / 10 % 10) * 10 + y % 10 = y := by
    omega
  rw [this]

theorem take2_pad2 (n : Nat) (rest : List Char) (hn : n ≤ 99) :
    take2 (pad2 n ++ rest) = some (n, rest) := by
  have ha : n / 10 % 10 < 10 := by omega
  have hb : n % 10 < 10 := by omega
  simp only [pad2, List.cons_append, List.nil_append, take2,
    digitChar_isDigit _ ha, digitChar_isDigit _ hb,
    dval_digitChar _ ha, dval_digitChar _ hb, if_true]
  have : n / 10 % 10 * 10 + n % 10 = n := by omega
  rw [this]

theorem take2_pad2_nil (n : Nat) (hn : n ≤ 99) :
    take2 (pad2 n) = some (n, []) := by
  have h := take2_pad2 n [] hn
  rwa [List.append_nil] at h

theorem expectChar_cons_self (c : Char) (rest : List Char) :
    expectChar c (c :: rest) = some rest := by
  simp [expectChar]

theorem expectChar_cons_ne (c x : Char) (rest : List Char) (h : x ≠ c) :
    expectChar c (x :: rest) = none := by
  simp [expectChar, h]

theorem expectWS_space_pad2 (n : Nat) (rest : List Char) :
    expectWS (' ' :: (pad2 n ++ rest)) = some (pad2 n ++ rest) := by
  have hns : isPySpace (digitChar (n / 10 % 10)) = false :=
    digitChar_not_space _ (by omega)
  simp [expectWS, pad2, List.cons_append, List.dropWhile_cons, hns,
    (by decide : isPySpace ' ' = true)]

theorem parseDT_dtChars_hyphen (t : DT) (hv : validDT t) (hy : 1000 ≤ t.y) :
    parseDT '-' (dtChars t) = some t := by
  obtain ⟨hm1, hm2, hd1, hd2, hhh, hmi, hss, hy1, hy2⟩ := hv
  have hm99 : t.m ≤ 99 := by omega
  have hd99 : t.d ≤ 99 := by
    have : daysInMonth t.y t.m ≤ 31 := by
      unfold daysInMonth
      split
      · split <;> omega
      · split <;> omega
    omega
  have hh99 : t.hh ≤ 99 := by omega
  have hmi99 : t.mi ≤ 99 := by omega
  have hss99 : t.ss ≤ 99 := by omega
  unfold parseDT dtChars
  rw [take4_natChars t.y hy hy2]
  simp only [Option.some_bind]
  rw [expectChar_cons_self]
  simp only [Option.some_bind]
  rw [take2_pad2 t.m _ hm99]
  simp only [Option.some_bind]
  rw [expectChar_cons_self]
  simp only [Option.some_bind]
  rw [take2_pad2 t.d _ hd99]
  simp only [Option.some_bind]
  rw [expectWS_space_pad2 t.hh]
  simp only [Option.some_bind]
  rw [take2_pad2 t.hh _ hh99]
  simp only [Option.some_bind]
  rw [expectChar_cons_self]
  simp only [Option.some_bind]
  rw [take2_pad2 t.mi _ hmi99]
  simp only [Option.some_bind]
  rw [expectChar_cons_self]
  simp only [Option.some_bind]
  rw [take2_pad2_nil t.ss hss99]
  simp only [Option.some_bind]
  rw [if_pos ⟨by trivial, hy1, hm1, hm2, hd1, hd2, hhh, hmi, hss⟩]

theorem parseDT_colon_dtChars (t : DT) (hv : validDT t) (hy : 1000 ≤ t.y) :
    parseDT ':' (dtChars t) = none := by
  have hy2 : t.y ≤ 9999 := hv.2.2.2.2.2.2.2.2
  unfold parseDT dtChars
  rw [take4_natChars t.y hy hy2]
  simp only [Option.some_bind]
  rw [expectChar_cons_ne _ _ _ (by decide)]
  simp only [Option.none_bind]

/-- Claim C8: the formatter tries the colon-separated pattern first and
re-emits any successful parse in the hyphen-separated canonical form
(fourth conjunct and the concrete colon example); a canonical hyphen-form
input (the strftime rendering of any valid datetime with a four-digit year)
is returned unchanged (third conjunct); a string matching neither pattern is
passed through unchanged, not forced to 'Unknown' (fifth conjunct and the
concrete 'not a date' example). -/
theorem spec_C8 :
    (format_date "2023:07:04 10:15:30" = "2023-07-04 10:15:30")
    ∧ (format_date "not a date" = "not a date")
    ∧ (∀ t : DT, validDT t → 1000 ≤ t.y → format_date (strftimeDT t) = strftimeDT t)
    ∧ (∀ (s : String) (t : DT), parseDT ':' s.data = some t →
        format_date s = strftimeDT t)
    ∧ (∀ s : String, parseDT ':' s.data = none → parseDT '-' s.data = none →
        format_date s = s) := by
  refine ⟨by decide, by decide, ?_, ?_, ?_⟩
  · intro t hv hy
    have hdata : (strftimeDT t).data = dtChars t := rfl
    unfold format_date
    rw [hdata, parseDT_colon_dtChars t hv hy, parseDT_dtChars_hyphen t hv hy]
  · intro s t h
    unfold format_date
    rw [h]
  · intro s h1 h2
    unfold format_date
    rw [h1, h2]

/-- Claim C8 witness: the canonical hyphen string for 2023-07-04 10:15:30 is
returned unchanged. -/
theorem spec_C8_w :
    format_date (strftimeDT ⟨2023, 7, 4, 10, 15, 30⟩)
      = strftimeDT ⟨2023, 7, 4, 10, 15, 30⟩ :=
  spec_C8.2.2.1 ⟨2023, 7, 4, 10, 15, 30⟩ (by decide) (by decide)

/-! Claim C4: focal-length normalization. -/

theorem tryFocal_mm (s v : String) (h : tryFocal s = some v) :
    ∃ p, v = p ++ " mm" := by
  simp only [tryFocal] at h
  split at h
  · split at h
    · split at h
      · split at h
        · simp at h
        · exact ⟨_, (Option.some.inj h).symm⟩
      · simp at h
    · simp at h
  · rw [Option.map_eq_some'] at h
    obtain ⟨q, _, hq⟩ := h
    exact ⟨_, hq.symm⟩

/-- Claim C4 counterexample: the claim says input "50.0 mm" yields "50 mm".
The source renders the plain-decimal branch with f-string str(float(value)),
and str(50.0) is "50.0", so the field becomes "50.0 mm", not "50 mm". -/
theorem spec_C4_cex :
    tryFocal "50.0 mm" = some "50.0 mm" ∧
    dictGetS (format_metadata [("focal_length", "50.0 mm")]) "focal_length" ""
      = "50.0 mm" ∧
    ("50.0 mm" : String) ≠ "50 mm" := by
  exact ⟨by decide, by decide, by decide⟩

/-- Claim C4, amended: a rational numerator/denominator input renders as a
decimal with one fractional digit plus ' mm' ("50/1" yields "50.0 mm"); a
plain decimal renders through str(float), which keeps the trailing ".0", so
"50.0 mm" yields "50.0 mm" (not "50 mm"); any parse error including the
ZeroDivisionError of "0/0" yields "Unknown"; and every processed
non-'Unknown' raw value produces either 'Unknown' or a string carrying the
' mm' unit suffix. -/
theorem spec_C4 :
    (dictGetS (format_metadata [("focal_length", "50/1")]) "focal_length" ""
      = "50.0 mm")
    ∧ (dictGetS (format_metadata [("focal_length", "50.0 mm")]) "focal_length" ""
      = "50.0 mm")
    ∧ (dictGetS (format_metadata [("focal_length", "0/0")]) "focal_length" ""
      = "Unknown")
    ∧ (∀ s : String, s ≠ "Unknown" →
        ∃ v, format_focal s = some v ∧ (v = "Unknown" ∨ ∃ p, v = p ++ " mm")) := by
  refine ⟨by decide, by decide, by decide, ?_⟩
  intro s hs
  rw [format_focal_some s hs]
  cases h : tryFocal s with
  | none => exact ⟨"Unknown", by simp, Or.inl rfl⟩
  | some v => exact ⟨v, by simp, Or.inr (tryFocal_mm s v h)⟩

/-- Claim C4 witness: the rational example through the amended statement. -/
theorem spec_C4_w :
    ∃ v, format_focal "50/1" = some v ∧ (v = "Unknown" ∨ ∃ p, v = p ++ " mm") :=
  spec_C4.2.2.2 "50/1" (by decide)

/-! Claim C1: the shape of the record returned by extract_cr3_metadata. -/

theorem format_keys (raw : TagMap) :
    ∀ k ∈ sevenKeys, hasKeyS (format_metadata raw) k = true := by
  intro k hk
  fin_cases hk <;>
    · simp only [format_metadata]
      repeat first
        | exact hasKeyS_set_self _ _ _
        | exact hasKeyS_formatBase_date raw
        | apply hasKeyS_set_mono

/-- Claim C1 counterexample: the claim says every extraction result carries
all eight keys with 'Unknown' defaults, and that a file with no moov box
yields that fully-default record.  The source instead returns the empty
dict on every early exit: the empty file has no moov box and the result is
{}, which does not even contain camera_make. -/
theorem spec_C1_cex :
    extract_cr3_metadata 1 cDecoderNone [] = some [] ∧
    hasKeyS ([] : TagMap) "camera_make" = false := by
  exact ⟨rfl, rfl⟩

/-- Claim C1, amended: extract_cr3_metadata returns either the empty mapping
(no moov container, empty moov content, no target blocks, or no decoded
tags) or a mapping that always contains the seven keys camera_make,
camera_model, lens_model, date_taken, exposure, aperture, iso; the
focal_length key is additionally present only when a usable raw focal
length was decoded.  In particular a file with no moov container yields the
empty mapping, and a successful end-to-end run fills the decoded fields. -/
theorem spec_C1 :
    (∀ (fuel : Nat) (dec : Bytes → Option TagMap) (data : Bytes) (r : TagMap),
        extract_cr3_metadata fuel dec data = some r →
        r = [] ∨ ∀ k ∈ sevenKeys, hasKeyS r k = true)
    ∧ extract_cr3_metadata 1 cDecoderNone [] = some []
    ∧ dictGetS ((extract_cr3_metadata 5 cDecoder (mkBox moovType (mkBox cmt1 [1]))).getD [])
        "camera_make" "" = "Canon" := by
  refine ⟨?_, rfl, by decide⟩
  intro fuel dec data r h
  unfold extract_cr3_metadata at h
  cases htop : topScan fuel data 0 with
  | none => rw [htop] at h; simp at h
  | some mv =>
    rw [htop] at h
    cases mv with
    | none =>
      simp at h
      exact Or.inl h
    | some md =>
      by_cases hmd : md = []
      · simp only [hmd, if_pos rfl] at h
        simp at h
        exact Or.inl h
      · simp only [if_neg hmd] at h
        cases hpc : parse_container fuel md cmtTargets with
        | none => rw [hpc] at h; simp at h
        | some cmt =>
          rw [hpc] at h
          by_cases hcmt : cmt = []
          · simp only [hcmt, if_pos rfl] at h
            simp at h
            exact Or.inl h
          · simp only [if_neg hcmt] at h
            by_cases hraw : extract_exif_tags dec (dictItems cmt) = []
            · rw [if_pos hraw] at h
              simp at h
              exact Or.inl h
            · rw [if_neg hraw] at h
              simp only [Option.some.injEq] at h
              exact Or.inr (h ▸ format_keys _)

/-- Claim C1 witness: the empty-file case through the amended statement. -/
theorem spec_C1_w :
    ([] : TagMap) = [] ∨ ∀ k ∈ sevenKeys, hasKeyS ([] : TagMap) k = true :=
  spec_C1.1 1 cDecoderNone [] [] rfl

end CR3
